import Mathlib

/-!
# Edge authorization service (`services/auth/app/server.go`)

A shallow embedding of the Go program and proofs about it.

Conventions of the embedding:

* a Go `string` / `[]byte` is a list of bytes, `List Nat` (`GoString`);
* Go's `int` is a 64-bit two's-complement integer: arithmetic on it is done in `Int`
  and wrapped with `wrapInt64`;
* a Go `map[string]V` is an association list read with `List.lookup`, written by
  consing the new binding in front; `len(m) == 0` is `m = []`;
* the mutex-protected cache is passed explicitly (sequential semantics);
* standard-library and third-party functions whose behaviour the program does not
  define (Unicode case mapping, JSON, JWT verification, HMAC-SHA256) are fields of
  `GoLib`; `encoding/hex`, `encoding/base64`, `strings.Split` and decimal formatting
  are written out;
* the outcome of the outbound HTTP calls and the clock readings are fields of `World`.
-/

namespace AuthServer

/-! ## Strings and bytes -/

/-- Go `string` and `[]byte`: a sequence of bytes. -/
abbrev GoString := List Nat

/-- The bytes of an ASCII literal. -/
def str (s : String) : GoString := s.toList.map Char.toNat

/-- `strings.Split(s, sep)` for a one-byte separator. -/
def split (sep : Nat) : GoString → List GoString
  | [] => [[]]
  | c :: cs =>
    if c = sep then [] :: split sep cs
    else
      match split sep cs with
      | [] => [[c]]
      | p :: ps => (c :: p) :: ps

/-- `strings.HasPrefix(s, p)`. -/
def hasPrefix (s p : GoString) : Bool := p.isPrefixOf s

/-! ## `encoding/hex` -/

/-- `reverseHexTable` of `encoding/hex`: the value of a hexadecimal digit. -/
def fromHexChar (c : Nat) : Option Nat :=
  if 48 ≤ c ∧ c ≤ 57 then some (c - 48)
  else if 97 ≤ c ∧ c ≤ 102 then some (c - 87)
  else if 65 ≤ c ∧ c ≤ 70 then some (c - 55)
  else none

/-- `hex.DecodeString`: `none` stands for a non-nil error
(`InvalidByteError` or `ErrLength`). -/
def hexDecodeString : GoString → Option (List Nat)
  | [] => some []
  | [_] => none
  | p :: q :: rest =>
    match fromHexChar p, fromHexChar q with
    | some a, some b => (hexDecodeString rest).map (fun out => ((a <<< 4) ||| b) :: out)
    | _, _ => none

/-- The table `hextable` of `encoding/hex`. -/
def hextable : List Nat := str "0123456789abcdef"

/-- `hex.EncodeToString`. -/
def hexEncodeToString : List Nat → GoString
  | [] => []
  | b :: bs => hextable.getD (b >>> 4) 0 :: hextable.getD (b &&& 15) 0 :: hexEncodeToString bs

/-! ## `encoding/base64` -/

/-- An `Encoding` of `encoding/base64` (non-strict): the 64-byte alphabet and the
padding character (`none` is `NoPadding`). -/
structure Encoding where
  alphabet : List Nat
  padChar : Option Nat

/-- `encodeStd`. -/
def encodeStd : List Nat :=
  str "ABCDEFGHIJKLMNOPQRSTUVWXYZabcdefghijklmnopqrstuvwxyz0123456789+/"

/-- `encodeURL`. -/
def encodeURL : List Nat :=
  str "ABCDEFGHIJKLMNOPQRSTUVWXYZabcdefghijklmnopqrstuvwxyz0123456789-_"

/-- `base64.StdEncoding`. -/
def StdEncoding : Encoding := ⟨encodeStd, some 61⟩
/-- `base64.URLEncoding`. -/
def URLEncoding : Encoding := ⟨encodeURL, some 61⟩
/-- `base64.RawStdEncoding`. -/
def RawStdEncoding : Encoding := ⟨encodeStd, none⟩
/-- `base64.RawURLEncoding`. -/
def RawURLEncoding : Encoding := ⟨encodeURL, none⟩

/-- `enc.decodeMap[c]`: the 6-bit value of an alphabet byte, `none` for `0xff`. -/
def Encoding.decodeMap (enc : Encoding) (c : Nat) : Option Nat :=
  let i := enc.alphabet.indexOf c
  if i < enc.alphabet.length then some i else none

/-- Skip `\r` and `\n`. -/
def skipNewlines : GoString → GoString
  | [] => []
  | c :: cs => if c = 10 ∨ c = 13 then skipNewlines cs else c :: cs

/-- The bytes a quantum of `dlen` six-bit values (2, 3 or 4 of them) decodes to. -/
def quantumBytes (q : List Nat) : List Nat :=
  let v := fun (i : Nat) => q.getD i 0
  let val := (v 0 <<< 18) ||| (v 1 <<< 12) ||| (v 2 <<< 6) ||| v 3
  match q.length with
  | 4 => [val >>> 16, (val >>> 8) &&& 255, val &&& 255]
  | 3 => [val >>> 16, (val >>> 8) &&& 255]
  | 2 => [val >>> 16]
  | _ => []

/-- The loop of `Encoding.Decode` / `decodeQuantum`: `q` holds the six-bit values
read so far in the current quantum (fewer than four), `none` is `CorruptInputError`. -/
def Encoding.decodeFrom (enc : Encoding) : List Nat → GoString → Option (List Nat)
  | q, [] =>
    -- end of input inside `decodeQuantum`
    if q.length = 0 then some []
    else if q.length = 1 ∨ enc.padChar ≠ none then none
    else some (quantumBytes q)
  | q, c :: rest =>
    match enc.decodeMap c with
    | some v =>
      if q.length = 3 then (enc.decodeFrom [] rest).map (fun out => quantumBytes (q ++ [v]) ++ out)
      else enc.decodeFrom (q ++ [v]) rest
    | none =>
      if c = 10 ∨ c = 13 then enc.decodeFrom q rest
      else if some c ≠ enc.padChar then none
      else
        -- padding reached
        if q.length = 0 ∨ q.length = 1 then none
        else
          let afterPad : Option GoString :=
            if q.length = 2 then
              match skipNewlines rest with
              | [] => none
              | d :: rest2 => if some d ≠ enc.padChar then none else some rest2
            else some rest
          match afterPad with
          | none => none
          | some tl =>
            match skipNewlines tl with
            | [] => some (quantumBytes q)
            | _ :: _ => none

/-- `enc.DecodeString(s)`, `none` when the error is non-nil. -/
def Encoding.DecodeString (enc : Encoding) (s : GoString) : Option (List Nat) :=
  enc.decodeFrom [] s

/-! ## `parseSecret` -/

deriving instance DecidableEq for Except

/-- `parseSecret` (server.go 133-153). -/
def parseSecret (s : GoString) : Except String (List Nat) :=
  if s = [] then .error "empty secret"
  else
    match hexDecodeString s with
    | some b => .ok b
    | none =>
    match StdEncoding.DecodeString s with
    | some b => .ok b
    | none =>
    match URLEncoding.DecodeString s with
    | some b => .ok b
    | none =>
    match RawStdEncoding.DecodeString s with
    | some b => .ok b
    | none =>
    match RawURLEncoding.DecodeString s with
    | some b => .ok b
    | none => .ok s

/-! ## Decimal formatting (`%d`, `strconv.FormatInt(_, 10)`) -/

/-- Decimal digits of `n`, least significant first, as ASCII bytes; `fuel` bounds
the number of digits. -/
def digitsRev : Nat → Nat → List Nat
  | 0, _ => []
  | fuel + 1, n => if n < 10 then [48 + n] else (48 + n % 10) :: digitsRev fuel (n / 10)

/-- Decimal representation of a natural number. -/
def formatNat (n : Nat) : GoString := (digitsRev (n + 1) n).reverse

/-- `strconv.FormatInt(i, 10)`, which is also what the verb `%d` prints. -/
def formatInt (i : Int) : GoString :=
  if i < 0 then 45 :: formatNat i.natAbs else formatNat i.toNat

/-! ## Key set cache -/

/-- `jwkKey` (server.go 26-33). -/
structure jwkKey where
  Kid : GoString
  Kty : GoString
  Alg : GoString
  Use : GoString
  N : GoString
  E : GoString
  deriving DecidableEq, Repr

/-- `rsa.PublicKey`: the modulus is a `*big.Int`, the exponent a Go `int`. -/
structure PublicKey where
  N : Nat
  E : Int
  deriving DecidableEq, Repr

/-- `jwksCache` (server.go 39-46). The fields `url` and `hc` only select the
reply of the key-publication endpoint, which is `World.jwksReply`; `mu` is the lock. -/
structure jwksCache where
  keys : List (GoString × PublicKey)
  ttl : Int
  last : Int
  deriving DecidableEq, Repr

/-- What `c.hc.Get(c.url)` followed by `io.ReadAll(resp.Body)` yields: a transport
error, or a status code with the body (`none` when reading the body fails). -/
inductive JwksReply where
  | transportError
  | response (status : Int) (body : Option (List Nat))
  deriving DecidableEq, Repr

/-- What `s.hc.Do(req)` followed by `io.ReadAll(resp.Body)` yields for the identity
service (a read error is ignored by the program: `data, _ := io.ReadAll`). -/
inductive IdentityReply where
  | transportError
  | response (status : Int) (data : List Nat)
  deriving DecidableEq, Repr

/-- Outbound calls, in the order they are made. -/
inductive Call where
  | jwksFetch
  | identityResolve (slug userID : GoString)
  deriving DecidableEq, Repr

/-- Library functions the program calls and does not define. -/
structure GoLib where
  /-- `strings.ToUpper`. -/
  toUpper : GoString → GoString
  /-- `strings.ToLower`. -/
  toLower : GoString → GoString
  /-- `strings.TrimSpace`. -/
  trimSpace : GoString → GoString
  /-- `json.Unmarshal(data, &doc)` for `jwksDoc`: `none` on error, else `doc.Keys`. -/
  unmarshalJwksDoc : List Nat → Option (List jwkKey)
  /-- `json.Unmarshal(hb, &hdr)` for the token header: `none` on error, else `hdr.Kid`. -/
  unmarshalHeader : List Nat → Option GoString
  /-- `json.Unmarshal(data, &body)` for the identity reply: `none` on error, else
  `body.OrgID`. -/
  unmarshalOrgBody : List Nat → Option GoString
  /-- `parser.ParseWithClaims` with methods RS256/RS384/RS512 and the given leeway:
  `none` when `err != nil || !tok.Valid`, else the value of `claims["sub"].(string)`
  (empty when the claim is absent or not a string). -/
  jwtParse : GoString → PublicKey → Int → Option GoString
  /-- `hmac.New(sha256.New, key)`, `Write(msg)`, `Sum(nil)`. -/
  hmacSHA256 : List Nat → List Nat → List Nat

/-- The environment of one request: replies of the two upstreams and clock readings. -/
structure World where
  jwksReply : JwksReply
  identityReply : GoString → GoString → IdentityReply
  /-- The clock when `get` evaluates `time.Since(last)`. -/
  nowGet : Int
  /-- The clock when `fetch` evaluates `time.Now()`. -/
  nowFetch : Int
  /-- The value of `time.Now().Unix()` in `authorize`. -/
  nowUnix : Int

/-- The errors `fetch` returns. -/
inductive FetchError where
  | transport
  | status (code : Int)
  | read
  | unmarshal
  | noUsableKeys
  deriving DecidableEq, Repr

/-- The errors `get` returns. -/
inductive CacheError where
  | fetchFailed (e : FetchError)
  | notFound (kid : GoString)
  deriving DecidableEq, Repr

/-- Wrap-around of Go's 64-bit `int`. -/
def wrapInt64 (x : Int) : Int :=
  (x + 9223372036854775808) % 18446744073709551616 - 9223372036854775808

/-- The statement `eInt = eInt<<8 + int(b)` (server.go 89): the shift and the
addition both wrap. -/
def expStep (eInt : Int) (b : Nat) : Int := wrapInt64 (wrapInt64 (eInt * 256) + (b : Int))

/-- The loop `for _, b := range eBytes { eInt = eInt<<8 + int(b) }` (server.go 87-90). -/
def exponentOf (eBytes : List Nat) : Int := eBytes.foldl expStep 0

/-- `new(big.Int).SetBytes(b)`: the big-endian unsigned value of `b`. -/
def bigEndian (b : List Nat) : Nat := b.foldl (fun acc x => acc * 256 + x) 0

/-- The body of the loop over `doc.Keys` in `fetch` (server.go 76-94): the public
key built from an entry, `none` when the entry is skipped with `continue`. -/
def usableKey (L : GoLib) (k : jwkKey) : Option PublicKey :=
  if L.toUpper k.Kty ≠ str "RSA" ∨ k.N = [] ∨ k.E = [] ∨ k.Kid = [] then none
  else
    match RawURLEncoding.DecodeString k.N with
    | none => none
    | some nBytes =>
      match RawURLEncoding.DecodeString k.E with
      | none => none
      | some eBytes =>
        let eInt := exponentOf eBytes
        if eInt = 0 then none
        else some { N := bigEndian nBytes, E := eInt }

/-- One iteration of the loop over `doc.Keys`: `m[k.Kid] = pub` unless the entry is
skipped. -/
def insertKey (L : GoLib) (m : List (GoString × PublicKey)) (k : jwkKey) :
    List (GoString × PublicKey) :=
  match usableKey L k with
  | some pub => (k.Kid, pub) :: m
  | none => m

/-- The map `m` built by the loop of `fetch` (server.go 74-96). -/
def buildKeys (L : GoLib) (keys : List jwkKey) : List (GoString × PublicKey) :=
  keys.foldl (insertKey L) []

/-- `jwksCache.fetch` (server.go 57-105): the returned error (`none` is `nil`) and
the cache afterwards. -/
def fetch (L : GoLib) (W : World) (c : jwksCache) : Option FetchError × jwksCache :=
  match W.jwksReply with
  | .transportError => (some .transport, c)
  | .response status body =>
    if status ≠ 200 then (some (.status status), c)
    else
      match body with
      | none => (some .read, c)
      | some data =>
        match L.unmarshalJwksDoc data with
        | none => (some .unmarshal, c)
        | some keys =>
          let m := buildKeys L keys
          if m = [] then (some .noUsableKeys, c)
          else (none, { c with keys := m, last := W.nowFetch })

/-- The result of `get`: the key or the error, the cache afterwards, and whether
the key-publication endpoint was called. -/
structure GetResult where
  result : Except CacheError PublicKey
  cache : jwksCache
  fetched : Bool
  deriving DecidableEq

/-- The part of `get` from the call of `fetch` on (server.go 115-130). -/
def getAfterFetch (L : GoLib) (W : World) (c : jwksCache) (kid : GoString) : GetResult :=
  match fetch L W c with
  | (some err, c1) =>
    match c1.keys.lookup kid with
    | some pub => ⟨.ok pub, c1, true⟩
    | none => ⟨.error (.fetchFailed err), c1, true⟩
  | (none, c1) =>
    match c1.keys.lookup kid with
    | some pub => ⟨.ok pub, c1, true⟩
    | none => ⟨.error (.notFound kid), c1, true⟩

/-- `jwksCache.get` (server.go 107-131). -/
def get (L : GoLib) (W : World) (c : jwksCache) (kid : GoString) : GetResult :=
  match c.keys.lookup kid with
  | some pub =>
    if W.nowGet - c.last < c.ttl then ⟨.ok pub, c, false⟩
    else getAfterFetch L W c kid
  | none => getAfterFetch L W c kid

/-! ## `authorize` -/

/-- `server` (server.go 155-161); `identityURL` and `hc` select `World.identityReply`. -/
structure server where
  jwks : jwksCache
  secret : List Nat
  leeway : Int

/-- The parts of `*http.Request` that `authorize` reads. -/
structure Request where
  Method : GoString
  /-- `r.Header.Get("Authorization")`. -/
  authorization : GoString
  /-- `r.Header.Get("X-Org-Slug")`. -/
  orgSlug : GoString
  deriving DecidableEq, Repr

/-- What `authorize` writes: the status, the message of `http.Error` (empty when it
is not called) and the headers set with `w.Header().Set`. -/
structure Response where
  status : Nat
  message : String
  headers : List (String × GoString)
  deriving DecidableEq, Repr

/-- The effect of one call of `authorize`. -/
structure Outcome where
  resp : Response
  cache : jwksCache
  calls : List Call
  deriving DecidableEq

/-- `http.Error(w, msg, code)`. -/
def httpError (msg : String) (code : Nat) : Response := ⟨code, msg, []⟩

/-- The outbound calls a `get` made. -/
def getCalls (g : GetResult) : List Call := if g.fetched then [Call.jwksFetch] else []

/-- Token verification, server.go 164-220: on failure the response written, on
success the subject `userID`; in both cases the cache afterwards and the calls made.
The slice `authz[len("Bearer "):]` is `List.drop`: it is only reached when the
lower-cased header starts with the seven bytes `bearer `. Log lines are not modelled. -/
def verifyToken (L : GoLib) (s : server) (W : World) (r : Request) :
    Except Response GoString × jwksCache × List Call :=
  if r.Method ≠ str "POST" then (.error ⟨405, "", []⟩, s.jwks, [])
  else if r.authorization = [] ∨ ¬ hasPrefix (L.toLower r.authorization) (str "bearer ") then
    (.error (httpError "missing bearer token" 401), s.jwks, [])
  else
    let tokenStr := L.trimSpace (r.authorization.drop (str "Bearer ").length)
    let parts := split 46 tokenStr
    if parts.length ≠ 3 then (.error (httpError "invalid token" 401), s.jwks, [])
    else
      match RawURLEncoding.DecodeString (parts.getD 0 []) with
      | none => (.error (httpError "invalid token header" 401), s.jwks, [])
      | some hb =>
        match L.unmarshalHeader hb with
        | none => (.error (httpError "invalid token header" 401), s.jwks, [])
        | some kid =>
          if kid = [] then (.error (httpError "invalid token header" 401), s.jwks, [])
          else
            let g := get L W s.jwks kid
            match g.result with
            | .error _ => (.error (httpError "jwks error" 401), g.cache, getCalls g)
            | .ok pub =>
              match L.jwtParse tokenStr pub s.leeway with
              | none => (.error (httpError "invalid token" 401), g.cache, getCalls g)
              | some userID =>
                if userID = [] then (.error (httpError "missing sub" 401), g.cache, getCalls g)
                else (.ok userID, g.cache, getCalls g)

/-- Org resolution, server.go 223-268: the response written on failure, `orgID` on
success, and the calls made. Building the request URL from `identityURL` is part of
the call whose outcome is `World.identityReply`. -/
def resolveOrg (L : GoLib) (W : World) (orgSlug userID : GoString) :
    Except Response GoString × List Call :=
  if orgSlug ≠ [] then
    match W.identityReply orgSlug userID with
    | .transportError =>
      (.error (httpError "identity unavailable" 502), [Call.identityResolve orgSlug userID])
    | .response status data =>
      let res : Except Response GoString :=
        if status = 200 then
          match L.unmarshalOrgBody data with
          | none => .error (httpError "invalid identity response" 502)
          | some orgID =>
            if orgID = [] then .error (httpError "invalid identity response" 502)
            else .ok orgID
        else if status = 404 then .error (httpError "unknown org" 403)
        else if status = 403 then .error (httpError "forbidden" 403)
        else if status ≥ 500 then .error (httpError "identity error" 502)
        else .error (httpError "identity error" 502)
      (res, [Call.identityResolve orgSlug userID])
  else (.ok [], [])

/-- `fmt.Sprintf("%s|%s|%d", userID, orgID, ts)` (server.go 271). -/
def payload (userID orgID : GoString) (ts : Int) : GoString :=
  userID ++ [124] ++ orgID ++ [124] ++ formatInt ts

/-- The signature of server.go 272-274. -/
def signContext (L : GoLib) (secret : List Nat) (userID orgID : GoString) (ts : Int) :
    GoString :=
  hexEncodeToString (L.hmacSHA256 secret (payload userID orgID ts))

/-- The success response, server.go 270-283. -/
def successResponse (L : GoLib) (s : server) (W : World) (orgSlug userID orgID : GoString) :
    Response :=
  let ts := W.nowUnix
  let sig := signContext L s.secret userID orgID ts
  { status := 200
    message := ""
    headers := [("X-User-ID", userID), ("X-Org-ID", orgID), ("X-Org-Slug", orgSlug),
      ("X-Context-Timestamp", formatInt ts), ("X-Context-Signature", sig)] }

/-- `server.authorize` (server.go 163-284). -/
def authorize (L : GoLib) (s : server) (W : World) (r : Request) : Outcome :=
  match verifyToken L s W r with
  | (.error resp, c, calls) => ⟨resp, c, calls⟩
  | (.ok userID, c, calls) =>
    match resolveOrg L W r.orgSlug userID with
    | (.error resp, calls2) => ⟨resp, c, calls ++ calls2⟩
    | (.ok orgID, calls2) => ⟨successResponse L s W r.orgSlug userID orgID, c, calls ++ calls2⟩

/-! ## The filter of `fetch`, in words -/

/-- The condition under which `fetch` keeps an entry: the type upper-cases to `RSA`,
the identifier, `n` and `e` are non-empty, `n` and `e` decode as unpadded base64url,
and the exponent the code computes is non-zero. -/
def passesFilter (L : GoLib) (k : jwkKey) : Prop :=
  L.toUpper k.Kty = str "RSA" ∧ k.Kid ≠ [] ∧ k.N ≠ [] ∧ k.E ≠ [] ∧
    ∃ nBytes eBytes, RawURLEncoding.DecodeString k.N = some nBytes ∧
      RawURLEncoding.DecodeString k.E = some eBytes ∧ exponentOf eBytes ≠ 0

/-- The identifiers bound in a key map. -/
def identifiers (m : List (GoString × PublicKey)) : List GoString := m.map Prod.fst

/-- When `get` calls `fetch`: the identifier is absent or the snapshot is stale
(the negation of the guard of server.go 112). -/
def triggersFetch (W : World) (c : jwksCache) (kid : GoString) : Prop :=
  ¬ ((c.keys.lookup kid).isSome = true ∧ W.nowGet - c.last < c.ttl)

instance (W : World) (c : jwksCache) (kid : GoString) : Decidable (triggersFetch W c kid) := by
  unfold triggersFetch
  infer_instance

/-- The ordered chain of decoders of `parseSecret`. -/
def secretDecoders : List (GoString → Option (List Nat)) :=
  [hexDecodeString, StdEncoding.DecodeString, URLEncoding.DecodeString,
    RawStdEncoding.DecodeString, RawURLEncoding.DecodeString]

/-- The output of the first decoder of the chain that accepts `s`. -/
def firstAccepted (s : GoString) : Option (List Nat) :=
  secretDecoders.findSome? (fun d => d s)

/-- The token string `authorize` extracts from the `Authorization` header
(server.go 178). -/
def tokenOf (L : GoLib) (r : Request) : GoString :=
  L.trimSpace (r.authorization.drop (str "Bearer ").length)

/-- The request carries a bearer token: the two guards of server.go 167-177 pass. -/
def hasBearer (L : GoLib) (r : Request) : Prop :=
  r.Method = str "POST" ∧ r.authorization ≠ [] ∧
    hasPrefix (L.toLower r.authorization) (str "bearer ") = true

instance (L : GoLib) (r : Request) : Decidable (hasBearer L r) := by
  unfold hasBearer
  infer_instance

/-! ## Test doubles for the library and the upstreams -/

/-- `strings.ToUpper` on ASCII input. -/
def asciiToUpper (s : GoString) : GoString :=
  s.map (fun c => if 97 ≤ c ∧ c ≤ 122 then c - 32 else c)

/-- `strings.ToLower` on ASCII input. -/
def asciiToLower (s : GoString) : GoString :=
  s.map (fun c => if 65 ≤ c ∧ c ≤ 90 then c + 32 else c)

/-- ASCII white space. -/
def asciiSpace (c : Nat) : Bool := c = 9 ∨ c = 10 ∨ c = 11 ∨ c = 12 ∨ c = 13 ∨ c = 32

/-- `strings.TrimSpace` on ASCII input. -/
def asciiTrimSpace (s : GoString) : GoString :=
  ((s.dropWhile asciiSpace).reverse.dropWhile asciiSpace).reverse

/-- A usable entry with identifier `kid` and exponent `e`. -/
def rsaEntry (kid n e : String) : jwkKey :=
  { Kid := str kid, Kty := str "RSA", Alg := str "RS256", Use := str "sig",
    N := str n, E := str e }

/-- The JSON text of a key-publication document with the given entries. -/
def jwksJson (entries : List jwkKey) : List Nat :=
  let field := fun (name : String) (v : GoString) => [34] ++ str name ++ [34, 58, 34] ++ v ++ [34]
  let entry := fun (k : jwkKey) =>
    [123] ++ field "kid" k.Kid ++ [44] ++ field "kty" k.Kty ++ [44] ++ field "alg" k.Alg ++
      [44] ++ field "use" k.Use ++ [44] ++ field "n" k.N ++ [44] ++ field "e" k.E ++ [125]
  [123, 34] ++ str "keys" ++ [34, 58, 91] ++ [44].intercalate (entries.map entry) ++ [93, 125]

/-- The documents the test double of `json.Unmarshal` knows. -/
def knownDocs : List (List jwkKey) :=
  [ [rsaEntry "k0" "!!" "AQAB", rsaEntry "k1" "AQAB" "AQAB"],
    [rsaEntry "k2" "AQAB" "AQAB"],
    [rsaEntry "k3" "" "AQAB"],
    [rsaEntry "k4" "AQAB" "AQAAAAAAAAAB"],
    [rsaEntry "k5" "!!" "AQAB"],
    [rsaEntry "k6" "AQAB" "AQAB", rsaEntry "k6" "AQAB" "Aw"] ]

/-- The token of the fixtures: header `{"kid":"k1"}`, payload `{"sub":"u1"}`. -/
def fixtureToken : GoString := str "eyJraWQiOiJrMSJ9.eyJzdWIiOiJ1MSJ9.c2ln"

/-- A library double: ASCII case mapping and trimming; JSON decoding that answers on
the texts used below as `encoding/json` does and fails elsewhere; a token check that
accepts `fixtureToken` for subject `u1`; a MAC of the right size. -/
def fixtureLib : GoLib where
  toUpper := asciiToUpper
  toLower := asciiToLower
  trimSpace := asciiTrimSpace
  unmarshalJwksDoc := fun data => knownDocs.find? (fun d => jwksJson d = data)
  unmarshalHeader := fun hb =>
    if hb = [123] ++ str "\"kid\":\"k1\"" ++ [125] then some (str "k1") else none
  unmarshalOrgBody := fun data =>
    if data = [123] ++ str "\"org_id\":\"org-1\"" ++ [125] then some (str "org-1") else none
  jwtParse := fun tok _ _ => if tok = fixtureToken then some (str "u1") else none
  hmacSHA256 := fun key msg => List.replicate 32 ((key.sum + msg.sum) % 256)

/-- The key of the fixtures. -/
def fixtureKey : PublicKey := { N := 65537, E := 65537 }

/-- A server whose cache holds a fresh `k1`. -/
def fixtureServer : server :=
  { jwks := { keys := [(str "k1", fixtureKey)], ttl := 30, last := 100 },
    secret := [0xDE, 0xAD, 0xBE, 0xEF], leeway := 60 }

/-- A server whose cache is empty. -/
def emptyServer : server :=
  { jwks := { keys := [], ttl := 30, last := 0 }, secret := [0xDE, 0xAD, 0xBE, 0xEF],
    leeway := 60 }

/-- A world at clock 110 with the given upstream replies. -/
def fixtureWorld (jwks : JwksReply) (identity : IdentityReply) : World :=
  { jwksReply := jwks, identityReply := fun _ _ => identity,
    nowGet := 110, nowFetch := 111, nowUnix := 1700000000 }

/-- A `POST` with the fixture token and the given tenant hint. -/
def fixtureRequest (slug : String) : Request :=
  { Method := str "POST", authorization := str "Bearer " ++ fixtureToken, orgSlug := str slug }

/-! ## Lemmas: decimal formatting -/

/-- The number a list of ASCII digits, least significant first, denotes. -/
def valRev : List Nat → Nat
  | [] => 0
  | d :: ds => (d - 48) + 10 * valRev ds

theorem valRev_digitsRev : ∀ (fuel n : Nat), n < 10 ^ fuel → valRev (digitsRev fuel n) = n
  | 0, n, h => by
    have h0 : n = 0 := by simpa using h
    simp [digitsRev, valRev, h0]
  | fuel + 1, n, h => by
    unfold digitsRev
    split
    · simp [valRev]
    · have hlt : n / 10 < 10 ^ fuel := by
        rw [Nat.div_lt_iff_lt_mul (by norm_num)]
        rw [pow_succ] at h
        exact h
      have ih := valRev_digitsRev fuel (n / 10) hlt
      simp only [valRev, ih]
      omega

theorem digitsRev_range : ∀ (fuel n d : Nat), d ∈ digitsRev fuel n → 48 ≤ d ∧ d ≤ 57
  | 0, n, d, h => by simp [digitsRev] at h
  | fuel + 1, n, d, h => by
    unfold digitsRev at h
    split at h
    · simp at h; omega
    · rcases List.mem_cons.mp h with h1 | h1
      · omega
      · exact digitsRev_range fuel (n / 10) d h1

theorem digitsRev_ne_nil (fuel n : Nat) : digitsRev (fuel + 1) n ≠ [] := by
  unfold digitsRev
  split <;> simp

theorem formatNat_injective {a b : Nat} (h : formatNat a = formatNat b) : a = b := by
  unfold formatNat at h
  have h1 := List.reverse_injective h
  have ha := valRev_digitsRev (a + 1) a (Nat.lt_of_lt_of_le (Nat.lt_succ_self a)
    (Nat.lt_pow_self (by norm_num) (a + 1)).le)
  have hb := valRev_digitsRev (b + 1) b (Nat.lt_of_lt_of_le (Nat.lt_succ_self b)
    (Nat.lt_pow_self (by norm_num) (b + 1)).le)
  rw [← ha, ← hb, h1]

theorem formatNat_range {n d : Nat} (h : d ∈ formatNat n) : 48 ≤ d ∧ d ≤ 57 := by
  unfold formatNat at h
  exact digitsRev_range _ _ _ (List.mem_reverse.mp h)

theorem formatNat_ne_nil (n : Nat) : formatNat n ≠ [] := by
  unfold formatNat
  simpa using digitsRev_ne_nil n n

theorem formatNat_head_ne (n : Nat) (tl : List Nat) : formatNat n ≠ 45 :: tl := by
  intro h
  have hm : 45 ∈ formatNat n := by rw [h]; exact List.mem_cons_self _ _
  have := formatNat_range hm
  omega

theorem formatInt_injective {i j : Int} (h : formatInt i = formatInt j) : i = j := by
  unfold formatInt at h
  by_cases hi : i < 0 <;> by_cases hj : j < 0 <;> simp only [hi, hj, if_true, if_false] at h
  · have := formatNat_injective (List.cons_injective h)
    omega
  · exact absurd h.symm (formatNat_head_ne _ _)
  · exact absurd h (formatNat_head_ne _ _)
  · have := formatNat_injective h
    omega

theorem formatInt_no_pipe (i : Int) : 124 ∉ formatInt i := by
  intro h
  unfold formatInt at h
  split at h
  · rcases List.mem_cons.mp h with h1 | h1
    · omega
    · have := formatNat_range h1; omega
  · have := formatNat_range h; omega

/-! ## Test vectors for the library models -/

theorem base64_vectors :
    StdEncoding.DecodeString (str "aGVsbG8=") = some (str "hello") ∧
    StdEncoding.DecodeString (str "aGVsbG8") = none ∧
    RawStdEncoding.DecodeString (str "aGVsbG8") = some (str "hello") ∧
    RawStdEncoding.DecodeString (str "aGVsbG8=") = none ∧
    StdEncoding.DecodeString (str "aA==") = some (str "h") ∧
    StdEncoding.DecodeString (str "aA=") = none ∧
    StdEncoding.DecodeString [10] = some [] ∧
    URLEncoding.DecodeString (str "_-8=") = some [255, 239] ∧
    StdEncoding.DecodeString (str "_-8=") = none ∧
    RawURLEncoding.DecodeString (str "") = some [] ∧
    RawURLEncoding.DecodeString (str "AQAB") = some [1, 0, 1] ∧
    RawURLEncoding.DecodeString (str "eyJraWQiOiJrMSJ9") = some (str "\x7b\"kid\":\"k1\"\x7d") := by
  decide

theorem hex_vectors :
    hexDecodeString (str "deadBEEF") = some [0xDE, 0xAD, 0xBE, 0xEF] ∧
    hexDecodeString (str "abc") = none ∧ hexDecodeString (str "zz") = none ∧
    hexEncodeToString [0xDE, 0xAD, 0x0F] = str "dead0f" := by
  decide

theorem format_vectors :
    formatInt 1700000000 = str "1700000000" ∧ formatInt (-12) = str "-12" ∧
    formatInt 0 = str "0" ∧ split 46 (str "a.b.c") = [str "a", str "b", str "c"] ∧
    split 46 (str "") = [[]] ∧ split 46 (str "a..") = [str "a", [], []] := by
  decide

theorem exponent_vectors :
    exponentOf [1, 0, 1] = 65537 ∧ exponentOf [1, 0, 0, 0, 0, 0, 0, 0, 1] = 1 ∧
    exponentOf [1, 0, 0, 0, 0, 0, 0, 0, 0] = 0 ∧
    exponentOf [128, 0, 0, 0, 0, 0, 0, 0] = -9223372036854775808 := by
  decide

/-! ## Lemmas: separators -/

theorem split_at_first_sep {sep : Nat} : ∀ (a b x y : List Nat), sep ∉ a → sep ∉ b →
    a ++ sep :: x = b ++ sep :: y → a = b ∧ x = y
  | [], [], x, y, _, _, h => by simpa using h
  | [], c :: b, x, y, _, hb, h => by
    simp only [List.nil_append, List.cons_append, List.cons.injEq] at h
    exact absurd (h.1 ▸ List.mem_cons_self _ _) hb
  | c :: a, [], x, y, ha, _, h => by
    simp only [List.nil_append, List.cons_append, List.cons.injEq] at h
    exact absurd (h.1 ▸ List.mem_cons_self _ _) ha
  | c :: a, d :: b, x, y, ha, hb, h => by
    simp only [List.cons_append, List.cons.injEq] at h
    have ha1 : sep ∉ a := fun hm => ha (List.mem_cons_of_mem _ hm)
    have hb1 : sep ∉ b := fun hm => hb (List.mem_cons_of_mem _ hm)
    obtain ⟨h1, h2⟩ := split_at_first_sep a b x y ha1 hb1 h.2
    exact ⟨by rw [h.1, h1], h2⟩

theorem split_at_last_sep {sep : Nat} (x y a b : List Nat) (ha : sep ∉ a) (hb : sep ∉ b)
    (h : x ++ sep :: a = y ++ sep :: b) : x = y ∧ a = b := by
  have hr := congrArg List.reverse h
  simp only [List.reverse_append, List.reverse_cons, List.append_assoc, List.singleton_append]
    at hr
  have := split_at_first_sep a.reverse b.reverse x.reverse y.reverse
    (by simpa using ha) (by simpa using hb) hr
  exact ⟨List.reverse_injective this.2, List.reverse_injective this.1⟩

/-! ## Lemmas: the exponent loop -/

theorem wrapInt64_of_lt (v : Int) (h0 : 0 ≤ v) (h : v < 9223372036854775808) :
    wrapInt64 v = v := by
  unfold wrapInt64
  omega

theorem wrapInt64_zero : wrapInt64 ((0 : Nat) : Int) = 0 := by
  unfold wrapInt64
  omega

theorem expStep_wrap (acc b : Nat) :
    expStep (wrapInt64 acc) b = wrapInt64 ((acc * 256 + b : Nat) : Int) := by
  unfold expStep wrapInt64
  push_cast
  omega

theorem exponent_foldl (bs : List Nat) : ∀ (acc : Nat),
    bs.foldl expStep (wrapInt64 acc)
      = wrapInt64 ((bs.foldl (fun a x => a * 256 + x) acc : Nat) : Int) := by
  induction bs with
  | nil => intro acc; rw [List.foldl_nil, List.foldl_nil]
  | cons b bs ih =>
    intro acc
    rw [List.foldl_cons, List.foldl_cons, expStep_wrap]
    exact ih (acc * 256 + b)

/-- The exponent loop computes the big-endian value wrapped to 64 bits. -/
theorem exponentOf_eq_wrap (eBytes : List Nat) :
    exponentOf eBytes = wrapInt64 (bigEndian eBytes : Int) := by
  unfold exponentOf bigEndian
  rw [← exponent_foldl eBytes 0, wrapInt64_zero]

theorem exponentOf_of_lt (eBytes : List Nat) (h : bigEndian eBytes < 2 ^ 63) :
    exponentOf eBytes = (bigEndian eBytes : Int) := by
  rw [exponentOf_eq_wrap]
  apply wrapInt64_of_lt
  · exact Int.natCast_nonneg _
  · have : (2 : Nat) ^ 63 = 9223372036854775808 := by norm_num
    omega

/-! ## Lemmas: the key map -/

theorem usableKey_eq_some_iff (L : GoLib) (k : jwkKey) (pub : PublicKey) :
    usableKey L k = some pub ↔
      L.toUpper k.Kty = str "RSA" ∧ k.Kid ≠ [] ∧ k.N ≠ [] ∧ k.E ≠ [] ∧
        ∃ nBytes eBytes, RawURLEncoding.DecodeString k.N = some nBytes ∧
          RawURLEncoding.DecodeString k.E = some eBytes ∧ exponentOf eBytes ≠ 0 ∧
          pub = { N := bigEndian nBytes, E := exponentOf eBytes } := by
  unfold usableKey
  by_cases h : L.toUpper k.Kty ≠ str "RSA" ∨ k.N = [] ∨ k.E = [] ∨ k.Kid = []
  · rw [if_pos h]
    constructor
    · intro h1; cases h1
    · rintro ⟨h1, h2, h3, h4, _⟩
      rcases h with h | h | h | h
      · exact absurd h1 h
      · exact absurd h h3
      · exact absurd h h4
      · exact absurd h h2
  · rw [if_neg h]
    have h1 : L.toUpper k.Kty = str "RSA" := by
      by_contra hc; exact h (Or.inl hc)
    have h2 : k.N ≠ [] := fun hc => h (Or.inr (Or.inl hc))
    have h3 : k.E ≠ [] := fun hc => h (Or.inr (Or.inr (Or.inl hc)))
    have h4 : k.Kid ≠ [] := fun hc => h (Or.inr (Or.inr (Or.inr hc)))
    cases hn : RawURLEncoding.DecodeString k.N with
    | none =>
      constructor
      · intro hc; cases hc
      · rintro ⟨_, _, _, _, nB, eB, hc, _⟩; cases hc
    | some nBytes =>
      cases he : RawURLEncoding.DecodeString k.E with
      | none =>
        constructor
        · intro hc; cases hc
        · rintro ⟨_, _, _, _, nB, eB, _, hc, _⟩; cases hc
      | some eBytes =>
        by_cases hz : exponentOf eBytes = 0
        · constructor
          · intro hc
            dsimp only at hc
            rw [if_pos hz] at hc
            cases hc
          · rintro ⟨_, _, _, _, nB, eB, _, hc, hnz, _⟩
            cases hc
            exact absurd hz hnz
        · constructor
          · intro hc
            dsimp only at hc
            rw [if_neg hz] at hc
            cases hc
            exact ⟨h1, h4, h2, h3, nBytes, eBytes, rfl, rfl, hz, rfl⟩
          · rintro ⟨_, _, _, _, nB, eB, hc1, hc2, _, hp⟩
            cases hc1
            cases hc2
            dsimp only
            rw [if_neg hz, hp]

theorem usableKey_isSome_iff (L : GoLib) (k : jwkKey) :
    (∃ pub, usableKey L k = some pub) ↔ passesFilter L k := by
  unfold passesFilter
  constructor
  · rintro ⟨pub, h⟩
    obtain ⟨h1, h2, h3, h4, nB, eB, h5, h6, h7, _⟩ := (usableKey_eq_some_iff L k pub).mp h
    exact ⟨h1, h2, h3, h4, nB, eB, h5, h6, h7⟩
  · rintro ⟨h1, h2, h3, h4, nB, eB, h5, h6, h7⟩
    exact ⟨_, (usableKey_eq_some_iff L k _).mpr ⟨h1, h2, h3, h4, nB, eB, h5, h6, h7, rfl⟩⟩

theorem mem_foldl_insertKey (L : GoLib) (keys : List jwkKey) :
    ∀ (m : List (GoString × PublicKey)) (p : GoString × PublicKey),
      p ∈ keys.foldl (insertKey L) m ↔
        p ∈ m ∨ ∃ k ∈ keys, usableKey L k = some p.2 ∧ k.Kid = p.1 := by
  induction keys with
  | nil => intro m p; simp
  | cons k ks ih =>
    intro m p
    rw [List.foldl_cons, ih]
    constructor
    · rintro (h | ⟨k1, hk1, h⟩)
      · unfold insertKey at h
        cases hu : usableKey L k with
        | none => rw [hu] at h; exact Or.inl h
        | some pub =>
          rw [hu] at h
          rcases List.mem_cons.mp h with h | h
          · right
            refine ⟨k, List.mem_cons_self _ _, ?_, ?_⟩
            · rw [h]; exact hu
            · rw [h]
          · exact Or.inl h
      · exact Or.inr ⟨k1, List.mem_cons_of_mem _ hk1, h⟩
    · rintro (h | ⟨k1, hk1, h⟩)
      · left
        unfold insertKey
        cases hu : usableKey L k with
        | none => exact h
        | some pub => exact List.mem_cons_of_mem _ h
      · rcases List.mem_cons.mp hk1 with hk | hk
        · left
          unfold insertKey
          rw [← hk, h.1]
          have : p = (k1.Kid, p.2) := by rw [h.2]
          rw [this]
          exact List.mem_cons_self _ _
        · exact Or.inr ⟨k1, hk, h⟩

theorem mem_buildKeys (L : GoLib) (keys : List jwkKey) (p : GoString × PublicKey) :
    p ∈ buildKeys L keys ↔ ∃ k ∈ keys, usableKey L k = some p.2 ∧ k.Kid = p.1 := by
  unfold buildKeys
  rw [mem_foldl_insertKey]
  simp

theorem mem_identifiers_buildKeys (L : GoLib) (keys : List jwkKey) (kid : GoString) :
    kid ∈ identifiers (buildKeys L keys) ↔ ∃ k ∈ keys, passesFilter L k ∧ k.Kid = kid := by
  unfold identifiers
  rw [List.mem_map]
  constructor
  · rintro ⟨p, hp, rfl⟩
    obtain ⟨k, hk, hu, hkid⟩ := (mem_buildKeys L keys p).mp hp
    exact ⟨k, hk, (usableKey_isSome_iff L k).mp ⟨_, hu⟩, hkid⟩
  · rintro ⟨k, hk, hf, hkid⟩
    obtain ⟨pub, hu⟩ := (usableKey_isSome_iff L k).mpr hf
    exact ⟨(kid, pub), (mem_buildKeys L keys _).mpr ⟨k, hk, hu, hkid⟩, rfl⟩

theorem buildKeys_eq_nil_iff (L : GoLib) (keys : List jwkKey) :
    buildKeys L keys = [] ↔ ∀ k ∈ keys, ¬ passesFilter L k := by
  constructor
  · intro h k hk hf
    obtain ⟨pub, hu⟩ := (usableKey_isSome_iff L k).mpr hf
    have : (k.Kid, pub) ∈ buildKeys L keys := (mem_buildKeys L keys _).mpr ⟨k, hk, hu, rfl⟩
    rw [h] at this
    exact List.not_mem_nil _ this
  · intro h
    apply List.eq_nil_iff_forall_not_mem.mpr
    intro p hp
    obtain ⟨k, hk, hu, _⟩ := (mem_buildKeys L keys p).mp hp
    exact h k hk ((usableKey_isSome_iff L k).mp ⟨_, hu⟩)

theorem lookup_isSome_iff_mem (m : List (GoString × PublicKey)) (kid : GoString) :
    (∃ pub, m.lookup kid = some pub) ↔ kid ∈ identifiers m := by
  unfold identifiers
  rw [← Option.isSome_iff_exists, List.lookup_isSome_iff, List.mem_map]
  constructor
  · rintro ⟨p, hp, h⟩
    exact ⟨p, hp, (beq_iff_eq.mp h).symm⟩
  · rintro ⟨p, hp, h⟩
    exact ⟨p, hp, beq_iff_eq.mpr h.symm⟩

theorem lookup_mem (m : List (GoString × PublicKey)) (kid : GoString) (pub : PublicKey)
    (h : m.lookup kid = some pub) : (kid, pub) ∈ m := by
  obtain ⟨l1, l2, rfl, _⟩ := List.lookup_eq_some_iff.mp h
  simp

theorem lookup_insertKey_of_ne (L : GoLib) (m : List (GoString × PublicKey)) (k : jwkKey)
    (kid : GoString) (h : passesFilter L k → k.Kid ≠ kid) :
    (insertKey L m k).lookup kid = m.lookup kid := by
  unfold insertKey
  cases hu : usableKey L k with
  | none => rfl
  | some pub =>
    have hne : k.Kid ≠ kid := h ((usableKey_isSome_iff L k).mp ⟨pub, hu⟩)
    have hbeq : (kid == k.Kid) = false := beq_false_of_ne (fun hc => hne hc.symm)
    dsimp only
    rw [List.lookup_cons, hbeq]

theorem lookup_foldl_insertKey_of_ne (L : GoLib) (post : List jwkKey) (kid : GoString) :
    ∀ (m : List (GoString × PublicKey)),
      (∀ k ∈ post, passesFilter L k → k.Kid ≠ kid) →
      (post.foldl (insertKey L) m).lookup kid = m.lookup kid := by
  induction post with
  | nil => intro m _; rfl
  | cons k ks ih =>
    intro m h
    rw [List.foldl_cons, ih (insertKey L m k) (fun k2 hk2 => h k2 (List.mem_cons_of_mem _ hk2))]
    exact lookup_insertKey_of_ne L m k kid (h k (List.mem_cons_self _ _))

/-- The binding of the last usable entry with a given identifier is the one the built
map holds. -/
theorem lookup_buildKeys_last (L : GoLib) (pre post : List jwkKey) (k : jwkKey)
    (pub : PublicKey) (hu : usableKey L k = some pub)
    (hlast : ∀ k2 ∈ post, passesFilter L k2 → k2.Kid ≠ k.Kid) :
    (buildKeys L (pre ++ k :: post)).lookup k.Kid = some pub := by
  unfold buildKeys
  rw [List.foldl_append, List.foldl_cons, lookup_foldl_insertKey_of_ne L post k.Kid _ hlast]
  unfold insertKey
  rw [hu]
  exact List.lookup_cons_self

/-! ## Lemmas: the stages of `authorize` -/

theorem authorize_of_rejected (L : GoLib) (s : server) (W : World) (r : Request)
    (resp : Response) (c : jwksCache) (calls : List Call)
    (hv : verifyToken L s W r = (.error resp, c, calls)) :
    authorize L s W r = ⟨resp, c, calls⟩ := by
  unfold authorize
  rw [hv]

theorem authorize_of_verified (L : GoLib) (s : server) (W : World) (r : Request)
    (userID : GoString) (c : jwksCache) (calls : List Call)
    (hv : verifyToken L s W r = (.ok userID, c, calls)) :
    authorize L s W r =
      match resolveOrg L W r.orgSlug userID with
      | (.error resp, calls2) => ⟨resp, c, calls ++ calls2⟩
      | (.ok orgID, calls2) =>
        ⟨successResponse L s W r.orgSlug userID orgID, c, calls ++ calls2⟩ := by
  unfold authorize
  rw [hv]

/-- With a bearer token of three segments whose header names `kid`, `verifyToken`
reaches the cache lookup. -/
theorem verifyToken_at_get (L : GoLib) (s : server) (W : World) (r : Request)
    (hb : List Nat) (kid : GoString) (hbear : hasBearer L r)
    (h3 : (split 46 (tokenOf L r)).length = 3)
    (hdec : RawURLEncoding.DecodeString ((split 46 (tokenOf L r)).getD 0 []) = some hb)
    (hk : L.unmarshalHeader hb = some kid) (hne : kid ≠ []) :
    verifyToken L s W r =
      match (get L W s.jwks kid).result with
      | .error _ =>
        (.error (httpError "jwks error" 401), (get L W s.jwks kid).cache,
          getCalls (get L W s.jwks kid))
      | .ok pub =>
        match L.jwtParse (tokenOf L r) pub s.leeway with
        | none =>
          (.error (httpError "invalid token" 401), (get L W s.jwks kid).cache,
            getCalls (get L W s.jwks kid))
        | some userID =>
          if userID = [] then
            (.error (httpError "missing sub" 401), (get L W s.jwks kid).cache,
              getCalls (get L W s.jwks kid))
          else (.ok userID, (get L W s.jwks kid).cache, getCalls (get L W s.jwks kid)) := by
  obtain ⟨hm, ha, hp⟩ := hbear
  unfold tokenOf at h3 hdec ⊢
  unfold verifyToken
  rw [if_neg (not_not.mpr hm), if_neg (by rw [hp]; simp [ha])]
  dsimp only
  rw [if_neg (not_not.mpr h3), hdec]
  dsimp only
  rw [hk]
  dsimp only
  rw [if_neg hne]

/-! ## Lemmas: `fetch` and `get` -/

theorem fetch_error_unchanged (L : GoLib) (W : World) (c : jwksCache) (err : FetchError)
    (h : (fetch L W c).1 = some err) : (fetch L W c).2 = c := by
  unfold fetch at h ⊢
  cases hr : W.jwksReply with
  | transportError => rfl
  | response status body =>
    rw [hr] at h
    dsimp only at h ⊢
    by_cases hs : status ≠ 200
    · rw [if_pos hs]
    · rw [if_neg hs] at h ⊢
      cases body with
      | none => rfl
      | some data =>
        dsimp only at h ⊢
        cases hd : L.unmarshalJwksDoc data with
        | none => rfl
        | some keys =>
          rw [hd] at h
          dsimp only at h ⊢
          by_cases hm : buildKeys L keys = []
          · rw [if_pos hm]
          · rw [if_neg hm] at h
            cases h

theorem fetch_of_doc (L : GoLib) (W : World) (c : jwksCache) (data : List Nat)
    (keys : List jwkKey) (hreply : W.jwksReply = .response 200 (some data))
    (hdoc : L.unmarshalJwksDoc data = some keys) :
    fetch L W c =
      if buildKeys L keys = [] then (some .noUsableKeys, c)
      else (none, { c with keys := buildKeys L keys, last := W.nowFetch }) := by
  unfold fetch
  rw [hreply]
  dsimp only
  rw [if_neg (by decide), hdoc]

theorem fetch_success (L : GoLib) (W : World) (c : jwksCache)
    (h : (fetch L W c).1 = none) :
    ∃ data keys, W.jwksReply = .response 200 (some data) ∧
      L.unmarshalJwksDoc data = some keys ∧ buildKeys L keys ≠ [] ∧
      (fetch L W c).2 = { c with keys := buildKeys L keys, last := W.nowFetch } := by
  unfold fetch at h ⊢
  cases hr : W.jwksReply with
  | transportError => rw [hr] at h; cases h
  | response status body =>
    rw [hr] at h
    dsimp only at h ⊢
    by_cases hs : status ≠ 200
    · rw [if_pos hs] at h; cases h
    · rw [if_neg hs] at h ⊢
      have hs2 : status = 200 := not_not.mp hs
      cases body with
      | none => cases h
      | some data =>
        dsimp only at h ⊢
        cases hd : L.unmarshalJwksDoc data with
        | none => rw [hd] at h; cases h
        | some keys =>
          rw [hd] at h
          dsimp only at h ⊢
          by_cases hm : buildKeys L keys = []
          · rw [if_pos hm] at h; cases h
          · rw [if_neg hm]
            exact ⟨data, keys, by rw [hs2], hd, hm, rfl⟩

theorem get_of_trigger (L : GoLib) (W : World) (c : jwksCache) (kid : GoString)
    (htrig : triggersFetch W c kid) : get L W c kid = getAfterFetch L W c kid := by
  unfold get
  cases hl : c.keys.lookup kid with
  | none => rfl
  | some pub =>
    dsimp only
    have hstale : ¬ (W.nowGet - c.last < c.ttl) := by
      intro hf
      apply htrig
      rw [hl]
      exact ⟨rfl, hf⟩
    rw [if_neg hstale]

theorem getAfterFetch_of_error (L : GoLib) (W : World) (c : jwksCache) (kid : GoString)
    (err : FetchError) (hfail : (fetch L W c).1 = some err) :
    getAfterFetch L W c kid =
      match c.keys.lookup kid with
      | some pub => ⟨.ok pub, c, true⟩
      | none => ⟨.error (.fetchFailed err), c, true⟩ := by
  have h2 := fetch_error_unchanged L W c err hfail
  have hpair : fetch L W c = (some err, c) := Prod.ext hfail h2
  unfold getAfterFetch
  rw [hpair]

theorem getAfterFetch_of_success (L : GoLib) (W : World) (c : jwksCache) (kid : GoString)
    (hok : (fetch L W c).1 = none) :
    getAfterFetch L W c kid =
      match (fetch L W c).2.keys.lookup kid with
      | some pub => ⟨.ok pub, (fetch L W c).2, true⟩
      | none => ⟨.error (.notFound kid), (fetch L W c).2, true⟩ := by
  have hpair : fetch L W c = (none, (fetch L W c).2) := Prod.ext hok rfl
  unfold getAfterFetch
  generalize fetch L W c = x at hpair ⊢
  rw [hpair]

/-- The ways `fetch` fails: transport error, status other than 200, unreadable body,
unparseable document, no usable key. -/
theorem fetch_error_causes (L : GoLib) (W : World) (c : jwksCache) :
    (W.jwksReply = .transportError → (fetch L W c).1 = some .transport) ∧
    (∀ status body, W.jwksReply = .response status body → status ≠ 200 →
      (fetch L W c).1 = some (.status status)) ∧
    (W.jwksReply = .response 200 none → (fetch L W c).1 = some .read) ∧
    (∀ data, W.jwksReply = .response 200 (some data) → L.unmarshalJwksDoc data = none →
      (fetch L W c).1 = some .unmarshal) ∧
    (∀ data keys, W.jwksReply = .response 200 (some data) →
      L.unmarshalJwksDoc data = some keys → buildKeys L keys = [] →
      (fetch L W c).1 = some .noUsableKeys) := by
  refine ⟨?_, ?_, ?_, ?_, ?_⟩
  · intro h
    unfold fetch
    rw [h]
  · intro status body h hs
    unfold fetch
    rw [h]
    dsimp only
    rw [if_pos hs]
  · intro h
    unfold fetch
    rw [h]
    rfl
  · intro data h hd
    unfold fetch
    rw [h]
    dsimp only
    rw [if_neg (by decide), hd]
  · intro data keys h hd hm
    rw [fetch_of_doc L W c data keys h hd, if_pos hm]

/-! ## Claims about the key set cache -/

/-- C3: when `get` triggers a fetch and the fetch fails, `fetch` and `get` leave the
cache (key map and timestamp) exactly as it was, `get` answers with the previously
cached key when the identifier is in the map, stale or not, and it returns the fetch
error exactly when the identifier is absent. -/
theorem get_fetch_failure_keeps_snapshot (L : GoLib) (W : World) (c : jwksCache)
    (kid : GoString) (err : FetchError) (htrig : triggersFetch W c kid)
    (hfail : (fetch L W c).1 = some err) :
    (fetch L W c).2 = c ∧ (get L W c kid).cache = c ∧ (get L W c kid).fetched = true ∧
      (∀ pub, c.keys.lookup kid = some pub → (get L W c kid).result = .ok pub) ∧
      (c.keys.lookup kid = none → (get L W c kid).result = .error (.fetchFailed err)) ∧
      (∀ e, (get L W c kid).result = .error e →
        c.keys.lookup kid = none ∧ e = .fetchFailed err) := by
  rw [get_of_trigger L W c kid htrig, getAfterFetch_of_error L W c kid err hfail]
  refine ⟨fetch_error_unchanged L W c err hfail, ?_⟩
  cases hl : c.keys.lookup kid with
  | none =>
    refine ⟨rfl, rfl, ?_, ?_, ?_⟩
    · intro pub hp; cases hp
    · intro _; rfl
    · intro e he
      cases he
      exact ⟨rfl, rfl⟩
  | some pub =>
    refine ⟨rfl, rfl, ?_, ?_, ?_⟩
    · intro pub2 hp; cases hp; rfl
    · intro hp; cases hp
    · intro e he; cases he

/-- Witness for C3: a stale snapshot holding `k1` still answers for `k1` when the
key-publication endpoint is unreachable. -/
theorem get_fetch_failure_keeps_snapshot_witness :
    (get fixtureLib (fixtureWorld .transportError .transportError)
        { keys := [(str "k1", fixtureKey)], ttl := 30, last := 0 } (str "k1")).cache
      = { keys := [(str "k1", fixtureKey)], ttl := 30, last := 0 } ∧
    (get fixtureLib (fixtureWorld .transportError .transportError)
        { keys := [(str "k1", fixtureKey)], ttl := 30, last := 0 } (str "k1")).result
      = .ok fixtureKey := by
  have h := get_fetch_failure_keeps_snapshot fixtureLib
    (fixtureWorld .transportError .transportError)
    { keys := [(str "k1", fixtureKey)], ttl := 30, last := 0 } (str "k1") .transport
    (by decide) (by decide)
  exact ⟨h.2.1, h.2.2.2.1 fixtureKey (by decide)⟩

/-- C9: when `get` performs a fetch that succeeds and no usable entry of the new
document has the identifier `kid`, `get` returns the not-found error whatever the
previous snapshot held, the new key map is the one built from the document alone,
and `authorize` answers 401 to a token naming `kid`. -/
theorem get_refresh_replaces_snapshot (L : GoLib) (W : World) (c : jwksCache)
    (kid : GoString) (data : List Nat) (keys : List jwkKey)
    (htrig : triggersFetch W c kid)
    (hreply : W.jwksReply = .response 200 (some data))
    (hdoc : L.unmarshalJwksDoc data = some keys)
    (husable : ∃ k ∈ keys, passesFilter L k)
    (hmiss : ∀ k ∈ keys, passesFilter L k → k.Kid ≠ kid) :
    (fetch L W c).1 = none ∧
      (get L W c kid).result = .error (.notFound kid) ∧
      (get L W c kid).cache.keys = buildKeys L keys ∧
      (get L W c kid).cache.last = W.nowFetch ∧
      (∀ (s : server) (r : Request) (hb : List Nat), s.jwks = c → hasBearer L r →
        (split 46 (tokenOf L r)).length = 3 →
        RawURLEncoding.DecodeString ((split 46 (tokenOf L r)).getD 0 []) = some hb →
        L.unmarshalHeader hb = some kid → kid ≠ [] →
        (authorize L s W r).resp.status = 401) := by
  have hne : buildKeys L keys ≠ [] := by
    intro h
    obtain ⟨k, hk, hf⟩ := husable
    exact (buildKeys_eq_nil_iff L keys).mp h k hk hf
  have hfetch := fetch_of_doc L W c data keys hreply hdoc
  rw [if_neg hne] at hfetch
  have hok : (fetch L W c).1 = none := by rw [hfetch]
  have hlook : (fetch L W c).2.keys.lookup kid = none := by
    rw [hfetch]
    cases hl : (buildKeys L keys).lookup kid with
    | none => rfl
    | some pub =>
      exfalso
      obtain ⟨k, hk, hu, hkid⟩ := (mem_buildKeys L keys (kid, pub)).mp (lookup_mem _ _ _ hl)
      exact hmiss k hk ((usableKey_isSome_iff L k).mp ⟨_, hu⟩) hkid
  have hget : get L W c kid = ⟨.error (.notFound kid), (fetch L W c).2, true⟩ := by
    rw [get_of_trigger L W c kid htrig, getAfterFetch_of_success L W c kid hok, hlook]
  refine ⟨hok, ?_, ?_, ?_, ?_⟩
  · rw [hget]
  · rw [hget, hfetch]
  · rw [hget, hfetch]
  · intro s r hb hs hbear h3 hdec hk hkne
    rw [authorize_of_rejected L s W r (httpError "jwks error" 401) (fetch L W c).2
      [Call.jwksFetch]]
    · rfl
    · rw [verifyToken_at_get L s W r hb kid hbear h3 hdec hk hkne, hs, hget]
      rfl

/-- Witness for C9: the stale snapshot holds `k1`, the refreshed document only `k2`;
the lookup of `k1` is a not-found error and the request is answered 401. -/
theorem get_refresh_replaces_snapshot_witness :
    (get fixtureLib
        (fixtureWorld (.response 200 (some (jwksJson [rsaEntry "k2" "AQAB" "AQAB"])))
          .transportError)
        { keys := [(str "k1", fixtureKey)], ttl := 30, last := 0 } (str "k1")).result
      = .error (.notFound (str "k1")) ∧
    (authorize fixtureLib
        { jwks := { keys := [(str "k1", fixtureKey)], ttl := 30, last := 0 },
          secret := [1], leeway := 60 }
        (fixtureWorld (.response 200 (some (jwksJson [rsaEntry "k2" "AQAB" "AQAB"])))
          .transportError)
        (fixtureRequest "")).resp.status = 401 := by
  have h := get_refresh_replaces_snapshot fixtureLib
    (fixtureWorld (.response 200 (some (jwksJson [rsaEntry "k2" "AQAB" "AQAB"])))
      .transportError)
    { keys := [(str "k1", fixtureKey)], ttl := 30, last := 0 } (str "k1")
    (jwksJson [rsaEntry "k2" "AQAB" "AQAB"]) [rsaEntry "k2" "AQAB" "AQAB"]
    (by decide) rfl (by decide)
    ⟨rsaEntry "k2" "AQAB" "AQAB", List.mem_singleton.mpr rfl,
      (usableKey_isSome_iff _ _).mp ⟨⟨65537, 65537⟩, by decide⟩⟩
    (by
      intro k hk _
      rw [List.mem_singleton.mp hk]
      decide)
  exact ⟨h.2.1, h.2.2.2.2 _ (fixtureRequest "") (str "\x7b\"kid\":\"k1\"\x7d") rfl (by decide)
    (by decide) (by decide) (by decide) (by decide)⟩

/-! ## Claims about `authorize` -/

/-- C8: a `POST` with a bearer header whose token does not split on `.` into exactly
three segments is answered 401 with the cache untouched and no outbound call. -/
theorem authorize_malformed_token_no_lookup (L : GoLib) (s : server) (W : World)
    (r : Request) (hbear : hasBearer L r) (hseg : (split 46 (tokenOf L r)).length ≠ 3) :
    (authorize L s W r).resp.status = 401 ∧ (authorize L s W r).cache = s.jwks ∧
      (authorize L s W r).calls = [] := by
  obtain ⟨hm, ha, hp⟩ := hbear
  have hv : verifyToken L s W r = (.error (httpError "invalid token" 401), s.jwks, []) := by
    unfold tokenOf at hseg
    unfold verifyToken
    rw [if_neg (not_not.mpr hm), if_neg (by rw [hp]; simp [ha])]
    dsimp only
    rw [if_pos hseg]
  rw [authorize_of_rejected L s W r _ _ _ hv]
  exact ⟨rfl, rfl, rfl⟩

/-- Witness for C8: the two-segment token `a.b` with an empty cache and a reachable
key-publication endpoint. -/
theorem authorize_malformed_token_no_lookup_witness :
    (authorize fixtureLib emptyServer
        (fixtureWorld (.response 200 (some (jwksJson [rsaEntry "k2" "AQAB" "AQAB"])))
          .transportError)
        { Method := str "POST", authorization := str "Bearer a.b", orgSlug := [] }).resp.status
      = 401 ∧
    (authorize fixtureLib emptyServer
        (fixtureWorld (.response 200 (some (jwksJson [rsaEntry "k2" "AQAB" "AQAB"])))
          .transportError)
        { Method := str "POST", authorization := str "Bearer a.b", orgSlug := [] }).calls
      = [] := by
  have h := authorize_malformed_token_no_lookup fixtureLib emptyServer
    (fixtureWorld (.response 200 (some (jwksJson [rsaEntry "k2" "AQAB" "AQAB"])))
      .transportError)
    { Method := str "POST", authorization := str "Bearer a.b", orgSlug := [] }
    (by decide) (by decide)
  exact ⟨h.1, h.2.2⟩

/-- C2 as stated fails: with an empty cache and an unreachable key-publication
endpoint, a well-formed token naming `k1` is answered 401, not 502. -/
theorem authorize_key_unavailable_not_502 :
    hasBearer fixtureLib (fixtureRequest "") ∧
    (split 46 (tokenOf fixtureLib (fixtureRequest ""))).length = 3 ∧
    (RawURLEncoding.DecodeString
        ((split 46 (tokenOf fixtureLib (fixtureRequest ""))).getD 0 [])).bind
      fixtureLib.unmarshalHeader = some (str "k1") ∧
    (fetch fixtureLib (fixtureWorld .transportError .transportError) emptyServer.jwks).1
      = some .transport ∧
    emptyServer.jwks.keys.lookup (str "k1") = none ∧
    (authorize fixtureLib emptyServer (fixtureWorld .transportError .transportError)
      (fixtureRequest "")).resp.status = 401 ∧
    (authorize fixtureLib emptyServer (fixtureWorld .transportError .transportError)
      (fixtureRequest "")).resp.status ≠ 502 := by
  decide

/-- C2, amended: for a request whose token has three segments and a decodable header
with a non-empty key identifier, if the key-publication fetch fails and the retained
snapshot does not contain that identifier, the cache returns the fetch error, keeps
its snapshot, and `authorize` responds with status 401. -/
theorem authorize_key_unavailable_401 (L : GoLib) (s : server) (W : World) (r : Request)
    (hb : List Nat) (kid : GoString) (err : FetchError) (hbear : hasBearer L r)
    (h3 : (split 46 (tokenOf L r)).length = 3)
    (hdec : RawURLEncoding.DecodeString ((split 46 (tokenOf L r)).getD 0 []) = some hb)
    (hk : L.unmarshalHeader hb = some kid) (hne : kid ≠ [])
    (hfail : (fetch L W s.jwks).1 = some err)
    (hmiss : s.jwks.keys.lookup kid = none) :
    (get L W s.jwks kid).result = .error (.fetchFailed err) ∧
      (authorize L s W r).resp.status = 401 ∧ (authorize L s W r).cache = s.jwks := by
  have htrig : triggersFetch W s.jwks kid := by
    unfold triggersFetch
    rw [hmiss]
    intro h
    cases h.1
  have hget : get L W s.jwks kid = ⟨.error (.fetchFailed err), s.jwks, true⟩ := by
    rw [get_of_trigger L W s.jwks kid htrig, getAfterFetch_of_error L W s.jwks kid err hfail,
      hmiss]
  have hv : verifyToken L s W r
      = (.error (httpError "jwks error" 401), s.jwks, [Call.jwksFetch]) := by
    rw [verifyToken_at_get L s W r hb kid hbear h3 hdec hk hne, hget]
    rfl
  rw [authorize_of_rejected L s W r _ _ _ hv, hget]
  exact ⟨rfl, rfl, rfl⟩

/-- Witness for the amended C2. -/
theorem authorize_key_unavailable_401_witness :
    (authorize fixtureLib emptyServer (fixtureWorld .transportError .transportError)
      (fixtureRequest "")).resp.status = 401 :=
  (authorize_key_unavailable_401 fixtureLib emptyServer
    (fixtureWorld .transportError .transportError) (fixtureRequest "")
    (str "\x7b\"kid\":\"k1\"\x7d") (str "k1") .transport (by decide) (by decide) (by decide)
    (by decide) (by decide) (by decide) (by decide)).2.1

/-- C1: once the token is verified and a non-empty tenant hint is supplied, the
decision follows the table: 200 with a body that parses to a non-empty `org_id`
succeeds with that `org_id` as tenant; 200 with an unparseable body or an empty
`org_id` gives 502; 404 gives 403; 403 gives 403; any other status and any transport
error give 502. -/
theorem authorize_resolution_table (L : GoLib) (s : server) (W : World) (r : Request)
    (userID : GoString) (c : jwksCache) (calls : List Call)
    (hv : verifyToken L s W r = (.ok userID, c, calls)) (hs : r.orgSlug ≠ []) :
    (∀ data orgID, W.identityReply r.orgSlug userID = .response 200 data →
        L.unmarshalOrgBody data = some orgID → orgID ≠ [] →
        (authorize L s W r).resp = successResponse L s W r.orgSlug userID orgID ∧
        (authorize L s W r).resp.status = 200 ∧
        ("X-Org-ID", orgID) ∈ (authorize L s W r).resp.headers) ∧
    (∀ data, W.identityReply r.orgSlug userID = .response 200 data →
        (L.unmarshalOrgBody data = none ∨ L.unmarshalOrgBody data = some []) →
        (authorize L s W r).resp.status = 502) ∧
    (∀ data, W.identityReply r.orgSlug userID = .response 404 data →
        (authorize L s W r).resp.status = 403) ∧
    (∀ data, W.identityReply r.orgSlug userID = .response 403 data →
        (authorize L s W r).resp.status = 403) ∧
    (∀ status data, W.identityReply r.orgSlug userID = .response status data →
        status ≠ 200 → status ≠ 404 → status ≠ 403 →
        (authorize L s W r).resp.status = 502) ∧
    (W.identityReply r.orgSlug userID = .transportError →
        (authorize L s W r).resp.status = 502) := by
  rw [authorize_of_verified L s W r userID c calls hv]
  unfold resolveOrg
  rw [if_pos hs]
  refine ⟨?_, ?_, ?_, ?_, ?_, ?_⟩
  · intro data orgID hrep hbody hne
    rw [hrep]
    dsimp only
    rw [if_pos rfl, hbody]
    dsimp only
    rw [if_neg hne]
    refine ⟨rfl, rfl, ?_⟩
    unfold successResponse
    simp
  · intro data hrep hbody
    rw [hrep]
    dsimp only
    rw [if_pos rfl]
    rcases hbody with hbody | hbody
    · rw [hbody]; rfl
    · rw [hbody]; rfl
  · intro data hrep
    rw [hrep]
    rfl
  · intro data hrep
    rw [hrep]
    rfl
  · intro status data hrep h200 h404 h403
    rw [hrep]
    dsimp only
    rw [if_neg h200, if_neg h404, if_neg h403]
    by_cases h5 : status ≥ 500
    · rw [if_pos h5]; rfl
    · rw [if_neg h5]; rfl
  · intro hrep
    rw [hrep]
    rfl

/-- Witness for C1: the identity service answers 404 for hint `acme` and subject `u1`;
the response is 403. -/
theorem authorize_resolution_table_witness :
    verifyToken fixtureLib fixtureServer (fixtureWorld .transportError (.response 404 []))
        (fixtureRequest "acme") = (.ok (str "u1"), fixtureServer.jwks, []) ∧
    (authorize fixtureLib fixtureServer (fixtureWorld .transportError (.response 404 []))
      (fixtureRequest "acme")).resp.status = 403 :=
  ⟨by decide,
    (authorize_resolution_table fixtureLib fixtureServer
      (fixtureWorld .transportError (.response 404 [])) (fixtureRequest "acme") (str "u1")
      fixtureServer.jwks [] (by decide) (by decide)).2.2.1 [] rfl⟩

/-! ## Claims about `fetch` -/

/-- C4 as stated fails: an entry of type `RSA` with a non-empty identifier, an `n`
that decodes as unpadded base64url (the empty string decodes to no bytes), a
decodable `e` and exponent 65537 is skipped, and `fetch` reports no usable key. -/
theorem fetch_skips_empty_modulus :
    (rsaEntry "k3" "" "AQAB").Kty = str "RSA" ∧
    (rsaEntry "k3" "" "AQAB").Kid ≠ [] ∧
    RawURLEncoding.DecodeString (rsaEntry "k3" "" "AQAB").N = some [] ∧
    RawURLEncoding.DecodeString (rsaEntry "k3" "" "AQAB").E = some [1, 0, 1] ∧
    bigEndian [1, 0, 1] = 65537 ∧
    fetch fixtureLib
        (fixtureWorld (.response 200 (some (jwksJson [rsaEntry "k3" "" "AQAB"])))
          .transportError) emptyServer.jwks
      = (some .noUsableKeys, emptyServer.jwks) := by
  decide

/-- C4, amended: for every key-publication document, the key set `fetch` installs has
exactly the identifiers of the entries that pass the filter (type equal to `RSA`
after upper-casing, non-empty identifier, non-empty `n` and `e` that decode as
unpadded base64url, non-zero computed exponent); if no entry passes, `fetch` returns
an error and leaves the key map and timestamp untouched; `fetch` never installs an
empty key map. -/
theorem fetch_installs_filtered_keys (L : GoLib) (W : World) (c : jwksCache) :
    (∀ data keys, W.jwksReply = .response 200 (some data) →
        L.unmarshalJwksDoc data = some keys →
        ((∃ k ∈ keys, passesFilter L k) →
          (fetch L W c).1 = none ∧ (fetch L W c).2.last = W.nowFetch ∧
          ∀ kid, kid ∈ identifiers (fetch L W c).2.keys ↔
            ∃ k ∈ keys, passesFilter L k ∧ k.Kid = kid) ∧
        ((∀ k ∈ keys, ¬ passesFilter L k) →
          fetch L W c = (some .noUsableKeys, c))) ∧
    ((fetch L W c).1 = none → (fetch L W c).2.keys ≠ []) ∧
    (∀ err, (fetch L W c).1 = some err → (fetch L W c).2 = c) := by
  refine ⟨?_, ?_, ?_⟩
  · intro data keys hreply hdoc
    have hfetch := fetch_of_doc L W c data keys hreply hdoc
    constructor
    · intro husable
      have hne : buildKeys L keys ≠ [] := by
        intro h
        obtain ⟨k, hk, hf⟩ := husable
        exact (buildKeys_eq_nil_iff L keys).mp h k hk hf
      rw [if_neg hne] at hfetch
      rw [hfetch]
      exact ⟨rfl, rfl, fun kid => mem_identifiers_buildKeys L keys kid⟩
    · intro hnone
      rw [if_pos ((buildKeys_eq_nil_iff L keys).mpr hnone)] at hfetch
      exact hfetch
  · intro hok
    obtain ⟨data, keys, _, _, hne, h2⟩ := fetch_success L W c hok
    rw [h2]
    exact hne
  · intro err herr
    exact fetch_error_unchanged L W c err herr

/-- Witness for the amended C4: a document with one malformed entry (`k0`, whose `n`
is not base64url) and one valid entry (`k1`) installs exactly `k1`. -/
theorem fetch_installs_filtered_keys_witness :
    (fetch fixtureLib
        (fixtureWorld (.response 200 (some (jwksJson
          [rsaEntry "k0" "!!" "AQAB", rsaEntry "k1" "AQAB" "AQAB"]))) .transportError)
        emptyServer.jwks).1 = none ∧
    identifiers (fetch fixtureLib
        (fixtureWorld (.response 200 (some (jwksJson
          [rsaEntry "k0" "!!" "AQAB", rsaEntry "k1" "AQAB" "AQAB"]))) .transportError)
        emptyServer.jwks).2.keys = [str "k1"] ∧
    (∀ kid, kid ∈ identifiers (fetch fixtureLib
        (fixtureWorld (.response 200 (some (jwksJson
          [rsaEntry "k0" "!!" "AQAB", rsaEntry "k1" "AQAB" "AQAB"]))) .transportError)
        emptyServer.jwks).2.keys ↔
      ∃ k ∈ [rsaEntry "k0" "!!" "AQAB", rsaEntry "k1" "AQAB" "AQAB"],
        passesFilter fixtureLib k ∧ k.Kid = kid) := by
  have h := ((fetch_installs_filtered_keys fixtureLib
    (fixtureWorld (.response 200 (some (jwksJson
      [rsaEntry "k0" "!!" "AQAB", rsaEntry "k1" "AQAB" "AQAB"]))) .transportError)
    emptyServer.jwks).1 _ [rsaEntry "k0" "!!" "AQAB", rsaEntry "k1" "AQAB" "AQAB"]
    rfl (by decide)).1
    ⟨rsaEntry "k1" "AQAB" "AQAB", by simp,
      (usableKey_isSome_iff _ _).mp ⟨⟨65537, 65537⟩, by decide⟩⟩
  exact ⟨h.1, by decide, h.2.2⟩

/-- C7 as stated fails: the nine bytes `01 00 00 00 00 00 00 00 01` decoded from `e`
have big-endian value `2^64 + 1`, and the entry is retained with exponent `1`. -/
theorem fetch_exponent_wraps :
    RawURLEncoding.DecodeString (rsaEntry "k4" "AQAB" "AQAAAAAAAAAB").E
      = some [1, 0, 0, 0, 0, 0, 0, 0, 1] ∧
    bigEndian [1, 0, 0, 0, 0, 0, 0, 0, 1] = 18446744073709551617 ∧
    fetch fixtureLib
        (fixtureWorld (.response 200 (some (jwksJson [rsaEntry "k4" "AQAB" "AQAAAAAAAAAB"])))
          .transportError) emptyServer.jwks
      = (none, { keys := [(str "k4", { N := 65537, E := 1 })], ttl := 30, last := 111 }) := by
  decide

/-- C7, amended: every binding of the key map that `fetch` installs was built from an
entry of the document with that identifier, and its stored public exponent equals the
big-endian unsigned value of that entry's decoded `e` bytes whenever that value is
below `2^63`; and every entry with a type that upper-cases to `RSA`, a non-empty
identifier, non-empty decodable `n` and `e`, an `e` whose big-endian value is non-zero
and below `2^63`, and no later usable entry with the same identifier, is bound in the
installed map to exactly that modulus and that exponent. -/
theorem fetch_exponent_below_int_max (L : GoLib) (W : World) (c : jwksCache)
    (hok : (fetch L W c).1 = none) :
    ∃ data keys, W.jwksReply = .response 200 (some data) ∧
      L.unmarshalJwksDoc data = some keys ∧
      (∀ kid pub, (fetch L W c).2.keys.lookup kid = some pub →
        ∃ k ∈ keys, k.Kid = kid ∧ usableKey L k = some pub ∧ ∃ eBytes,
          RawURLEncoding.DecodeString k.E = some eBytes ∧
          (bigEndian eBytes < 2 ^ 63 → pub.E = (bigEndian eBytes : Int))) ∧
      (∀ pre k post nBytes eBytes, keys = pre ++ k :: post →
        L.toUpper k.Kty = str "RSA" → k.Kid ≠ [] → k.N ≠ [] → k.E ≠ [] →
        RawURLEncoding.DecodeString k.N = some nBytes →
        RawURLEncoding.DecodeString k.E = some eBytes →
        bigEndian eBytes ≠ 0 → bigEndian eBytes < 2 ^ 63 →
        (∀ k2 ∈ post, passesFilter L k2 → k2.Kid ≠ k.Kid) →
        (fetch L W c).2.keys.lookup k.Kid
          = some { N := bigEndian nBytes, E := (bigEndian eBytes : Int) }) := by
  obtain ⟨data, keys, hreply, hdoc, _, h2⟩ := fetch_success L W c hok
  refine ⟨data, keys, hreply, hdoc, ?_, ?_⟩
  · intro kid pub hlook
    rw [h2] at hlook
    have hmem : (kid, pub) ∈ buildKeys L keys := lookup_mem _ _ _ hlook
    obtain ⟨k, hk, hu, hkid⟩ := (mem_buildKeys L keys (kid, pub)).mp hmem
    obtain ⟨_, _, _, _, nB, eB, _, hE, _, hpub⟩ := (usableKey_eq_some_iff L k pub).mp hu
    refine ⟨k, hk, hkid, hu, eB, hE, ?_⟩
    intro hlt
    rw [hpub]
    exact exponentOf_of_lt eB hlt
  · intro pre k post nB eB hkeys h1 h2k h3 h4 hN hE hnz hlt hlast
    have hexp : exponentOf eB = (bigEndian eB : Int) := exponentOf_of_lt eB hlt
    have hexp0 : exponentOf eB ≠ 0 := by
      rw [hexp]
      exact Int.natCast_ne_zero.mpr hnz
    have hu : usableKey L k = some { N := bigEndian nB, E := (bigEndian eB : Int) } := by
      rw [← hexp]
      exact (usableKey_eq_some_iff L k _).mpr ⟨h1, h2k, h3, h4, nB, eB, hN, hE, hexp0, rfl⟩
    rw [h2, hkeys]
    exact lookup_buildKeys_last L pre post k _ hu hlast

set_option maxRecDepth 20000 in
/-- Witness for the amended C7: in a document with two usable entries of identifier
`k6`, exponents 65537 and 3, the installed map binds `k6` to the later one, with
exponent 3, and that binding comes from an entry of the document. -/
theorem fetch_exponent_below_int_max_witness :
    (fetch fixtureLib
        (fixtureWorld (.response 200 (some (jwksJson
          [rsaEntry "k6" "AQAB" "AQAB", rsaEntry "k6" "AQAB" "Aw"]))) .transportError)
        emptyServer.jwks).2.keys.lookup (str "k6")
      = some { N := bigEndian [1, 0, 1], E := (bigEndian [3] : Int) } ∧
    ∃ k ∈ [rsaEntry "k6" "AQAB" "AQAB", rsaEntry "k6" "AQAB" "Aw"],
      k.Kid = str "k6" ∧
      usableKey fixtureLib k = some { N := bigEndian [1, 0, 1], E := (bigEndian [3] : Int) } := by
  obtain ⟨data, keys, h1, h2, h3, h4⟩ := fetch_exponent_below_int_max fixtureLib
    (fixtureWorld (.response 200 (some (jwksJson
      [rsaEntry "k6" "AQAB" "AQAB", rsaEntry "k6" "AQAB" "Aw"]))) .transportError)
    emptyServer.jwks (by decide)
  have hdata : data = jwksJson [rsaEntry "k6" "AQAB" "AQAB", rsaEntry "k6" "AQAB" "Aw"] := by
    cases h1
    rfl
  have hkeys : keys = [rsaEntry "k6" "AQAB" "AQAB", rsaEntry "k6" "AQAB" "Aw"] := by
    rw [hdata] at h2
    exact (Option.some.inj h2).symm
  have hlook := h4 [rsaEntry "k6" "AQAB" "AQAB"] (rsaEntry "k6" "AQAB" "Aw") [] [1, 0, 1] [3]
    (by rw [hkeys]; rfl) (by decide) (by decide) (by decide) (by decide) (by decide)
    (by decide) (by decide) (by decide) (by intro k2 hk2; cases hk2)
  refine ⟨hlook, ?_⟩
  obtain ⟨k, hk, hkid, hu, _⟩ := h3 _ _ hlook
  rw [hkeys] at hk
  exact ⟨k, hk, hkid, hu⟩

set_option maxRecDepth 20000 in
/-- A later usable entry with the same identifier overwrites an earlier one: of two
entries `k6` with exponents 65537 and 3, only the second is in the installed map. -/
theorem fetch_later_entry_overwrites :
    (fetch fixtureLib
        (fixtureWorld (.response 200 (some (jwksJson
          [rsaEntry "k6" "AQAB" "AQAB", rsaEntry "k6" "AQAB" "Aw"]))) .transportError)
        emptyServer.jwks).2.keys.lookup (str "k6") = some { N := 65537, E := 3 } := by
  decide

/-! ## Claims about the secret and the signed context -/

/-- C5: for a non-empty string, `parseSecret` succeeds with the output of the first
decoder that accepts it in the order hexadecimal, standard base64, URL-safe base64,
unpadded standard base64, unpadded URL-safe base64, and with the raw bytes when all
five reject; `deadbeef`, accepted by both hex and base64, decodes as hex; the result
is an error exactly for the empty string. -/
theorem parseSecret_decoder_precedence :
    (∀ s : GoString, s ≠ [] → parseSecret s = .ok ((firstAccepted s).getD s)) ∧
    (∀ s : GoString, (∃ e, parseSecret s = .error e) ↔ s = []) ∧
    (hexDecodeString (str "deadbeef")).isSome = true ∧
    (StdEncoding.DecodeString (str "deadbeef")).isSome = true ∧
    parseSecret (str "deadbeef") = .ok [0xDE, 0xAD, 0xBE, 0xEF] := by
  have hmain : ∀ s : GoString, s ≠ [] → parseSecret s = .ok ((firstAccepted s).getD s) := by
    intro s hs
    unfold parseSecret firstAccepted secretDecoders
    rw [if_neg hs]
    cases h1 : hexDecodeString s with
    | some b => simp [List.findSome?, h1]
    | none =>
      cases h2 : StdEncoding.DecodeString s with
      | some b => simp [List.findSome?, h1, h2]
      | none =>
        cases h3 : URLEncoding.DecodeString s with
        | some b => simp [List.findSome?, h1, h2, h3]
        | none =>
          cases h4 : RawStdEncoding.DecodeString s with
          | some b => simp [List.findSome?, h1, h2, h3, h4]
          | none =>
            cases h5 : RawURLEncoding.DecodeString s with
            | some b => simp [List.findSome?, h1, h2, h3, h4, h5]
            | none => simp [List.findSome?, h1, h2, h3, h4, h5]
  refine ⟨hmain, ?_, by decide, by decide, by decide⟩
  intro s
  constructor
  · rintro ⟨e, he⟩
    by_contra hs
    rw [hmain s hs] at he
    cases he
  · intro hs
    rw [hs]
    exact ⟨"empty secret", rfl⟩

/-- Witness for C5: `zz` is rejected by hex and by the two padded alphabets and is
decoded by unpadded standard base64; `!` is rejected by all five and kept raw. -/
theorem parseSecret_decoder_precedence_witness :
    parseSecret (str "zz") = .ok [207] ∧ parseSecret (str "!") = .ok (str "!") := by
  have h1 := parseSecret_decoder_precedence.1 (str "zz") (by decide)
  have h2 := parseSecret_decoder_precedence.1 (str "!") (by decide)
  have e1 : (firstAccepted (str "zz")).getD (str "zz") = [207] := by decide
  have e2 : (firstAccepted (str "!")).getD (str "!") = str "!" := by decide
  rw [e1] at h1
  rw [e2] at h2
  exact ⟨h1, h2⟩

theorem hexEncodeToString_length (bs : List Nat) :
    (hexEncodeToString bs).length = 2 * bs.length := by
  induction bs with
  | nil => rfl
  | cons b bs ih =>
    unfold hexEncodeToString
    rw [List.length_cons, List.length_cons, List.length_cons, ih]
    omega

theorem hextable_getD_mem (i : Nat) (h : i < 16) : hextable.getD i 0 ∈ hextable := by
  have hl : i < hextable.length := by
    have : hextable.length = 16 := by decide
    omega
  rw [List.getD_eq_getElem _ _ hl]
  exact List.getElem_mem hl

theorem hexEncodeToString_lower (bs : List Nat) (hb : ∀ b ∈ bs, b < 256) :
    ∀ ch ∈ hexEncodeToString bs, ch ∈ str "0123456789abcdef" := by
  induction bs with
  | nil => intro ch h; cases h
  | cons b bs ih =>
    intro ch h
    unfold hexEncodeToString at h
    have hb256 : b < 256 := hb b (List.mem_cons_self _ _)
    rcases List.mem_cons.mp h with h | h
    · rw [h]
      apply hextable_getD_mem
      rw [Nat.shiftRight_eq_div_pow]
      omega
    · rcases List.mem_cons.mp h with h | h
      · rw [h]
        apply hextable_getD_mem
        have : b &&& 15 ≤ 15 := Nat.and_le_right
        omega
      · exact ih (fun x hx => hb x (List.mem_cons_of_mem _ hx)) ch h

theorem fromHexChar_hextable : ∀ i, i < 16 → fromHexChar (hextable.getD i 0) = some i := by
  decide

set_option maxRecDepth 20000 in
theorem nibbles_join : ∀ b, b < 256 → ((b >>> 4) <<< 4) ||| (b &&& 15) = b := by
  decide

/-- Decoding the hexadecimal encoding of a byte string gives the bytes back. -/
theorem hexDecodeString_hexEncodeToString (bs : List Nat) (hb : ∀ b ∈ bs, b < 256) :
    hexDecodeString (hexEncodeToString bs) = some bs := by
  induction bs with
  | nil => rfl
  | cons b bs ih =>
    have hb256 : b < 256 := hb b (List.mem_cons_self _ _)
    have hhi : b >>> 4 < 16 := by
      rw [Nat.shiftRight_eq_div_pow]
      omega
    have hlo : b &&& 15 < 16 := by
      have : b &&& 15 ≤ 15 := Nat.and_le_right
      omega
    unfold hexEncodeToString hexDecodeString
    rw [fromHexChar_hextable _ hhi, fromHexChar_hextable _ hlo]
    dsimp only
    rw [ih (fun x hx => hb x (List.mem_cons_of_mem _ hx)), nibbles_join b hb256]
    rfl

/-- C6: for every subject, tenant identifier and timestamp of a successful request,
the context signature in the response is the lowercase hexadecimal encoding, 64
characters long, of the HMAC-SHA256 under the configured secret of the payload
`subject|tenant|decimal timestamp`, the tenant being empty when no hint was supplied:
it consists of lowercase hexadecimal digits and decoding it as hexadecimal gives back
exactly the 32 bytes of that MAC; the golden vector with the secret `deadbeef`,
subject `u1`, empty tenant and timestamp 1700000000 signs `u1||1700000000` under the
key `DE AD BE EF`. -/
theorem context_signature_is_hmac_hex (L : GoLib) (s : server) (W : World) (r : Request)
    (userID orgID : GoString) (c : jwksCache) (calls calls2 : List Call)
    (hsize : ∀ key msg, (L.hmacSHA256 key msg).length = 32)
    (hbyte : ∀ key msg, ∀ b ∈ L.hmacSHA256 key msg, b < 256)
    (hv : verifyToken L s W r = (.ok userID, c, calls))
    (hr : resolveOrg L W r.orgSlug userID = (.ok orgID, calls2)) :
    (authorize L s W r).resp.status = 200 ∧
    (authorize L s W r).resp.headers =
      [("X-User-ID", userID), ("X-Org-ID", orgID), ("X-Org-Slug", r.orgSlug),
        ("X-Context-Timestamp", formatInt W.nowUnix),
        ("X-Context-Signature", hexEncodeToString (L.hmacSHA256 s.secret
          (userID ++ str "|" ++ orgID ++ str "|" ++ formatInt W.nowUnix)))] ∧
    (hexEncodeToString (L.hmacSHA256 s.secret
        (userID ++ str "|" ++ orgID ++ str "|" ++ formatInt W.nowUnix))).length = 64 ∧
    (∀ ch ∈ hexEncodeToString (L.hmacSHA256 s.secret
        (userID ++ str "|" ++ orgID ++ str "|" ++ formatInt W.nowUnix)),
      ch ∈ str "0123456789abcdef") ∧
    (r.orgSlug = [] → orgID = []) ∧
    parseSecret (str "deadbeef") = .ok [0xDE, 0xAD, 0xBE, 0xEF] ∧
    payload (str "u1") [] 1700000000 = str "u1||1700000000" ∧
    signContext L [0xDE, 0xAD, 0xBE, 0xEF] (str "u1") [] 1700000000
      = hexEncodeToString (L.hmacSHA256 [0xDE, 0xAD, 0xBE, 0xEF] (str "u1||1700000000")) ∧
    hexDecodeString (hexEncodeToString (L.hmacSHA256 s.secret
        (userID ++ str "|" ++ orgID ++ str "|" ++ formatInt W.nowUnix)))
      = some (L.hmacSHA256 s.secret
        (userID ++ str "|" ++ orgID ++ str "|" ++ formatInt W.nowUnix)) ∧
    hexDecodeString (signContext L [0xDE, 0xAD, 0xBE, 0xEF] (str "u1") [] 1700000000)
      = some (L.hmacSHA256 [0xDE, 0xAD, 0xBE, 0xEF] (str "u1||1700000000")) := by
  have hpay : payload (str "u1") [] 1700000000 = str "u1||1700000000" := by decide
  refine ⟨?_, ?_, ?_, ?_, ?_, by decide, hpay, ?_,
    hexDecodeString_hexEncodeToString _ (hbyte _ _), ?_⟩
  · rw [authorize_of_verified L s W r userID c calls hv, hr]
    rfl
  · rw [authorize_of_verified L s W r userID c calls hv, hr]
    rfl
  · rw [hexEncodeToString_length, hsize]
  · exact hexEncodeToString_lower _ (hbyte _ _)
  · intro hslug
    unfold resolveOrg at hr
    rw [if_neg (not_not.mpr hslug)] at hr
    cases hr
    rfl
  · unfold signContext
    rw [hpay]
  · unfold signContext
    rw [hpay]
    exact hexDecodeString_hexEncodeToString _ (hbyte _ _)

/-- Witness for C6: a verified request without tenant hint. -/
theorem context_signature_is_hmac_hex_witness :
    (authorize fixtureLib fixtureServer (fixtureWorld .transportError .transportError)
      (fixtureRequest "")).resp.headers =
      [("X-User-ID", str "u1"), ("X-Org-ID", []), ("X-Org-Slug", (fixtureRequest "").orgSlug),
        ("X-Context-Timestamp", formatInt 1700000000),
        ("X-Context-Signature", hexEncodeToString (fixtureLib.hmacSHA256 [0xDE, 0xAD, 0xBE, 0xEF]
          (str "u1" ++ str "|" ++ [] ++ str "|" ++ formatInt 1700000000)))] :=
  (context_signature_is_hmac_hex fixtureLib fixtureServer
    (fixtureWorld .transportError .transportError) (fixtureRequest "") (str "u1") []
    fixtureServer.jwks [] []
    (fun _ _ => List.length_replicate _ _)
    (fun key msg b hb => by
      rw [List.eq_of_mem_replicate hb]
      exact Nat.mod_lt _ (by norm_num))
    (by decide) (by decide)).2.1

/-- C10 as stated fails: a subject containing `|` with an empty tenant and a tenant
containing `|` yield the same payload. -/
theorem payload_collision :
    payload (str "a|b") (str "") 0 = payload (str "a") (str "b|") 0 ∧
      str "a|b" ≠ str "a" ∧ str "" ≠ str "b|" := by
  decide

/-- C10, amended: if neither subject contains `|`, or neither tenant identifier
contains `|`, then equal payloads have equal subjects, equal tenant identifiers and
equal timestamps. -/
theorem payload_injective_without_separator (s1 s2 t1 t2 : GoString) (n1 n2 : Int)
    (hsep : (124 ∉ s1 ∧ 124 ∉ s2) ∨ (124 ∉ t1 ∧ 124 ∉ t2))
    (h : payload s1 t1 n1 = payload s2 t2 n2) : s1 = s2 ∧ t1 = t2 ∧ n1 = n2 := by
  unfold payload at h
  simp only [List.append_assoc, List.singleton_append] at h
  rcases hsep with ⟨h1, h2⟩ | ⟨h1, h2⟩
  · obtain ⟨hs, hrest⟩ := split_at_first_sep s1 s2 _ _ h1 h2 h
    obtain ⟨ht, hn⟩ := split_at_last_sep t1 t2 _ _ (formatInt_no_pipe n1)
      (formatInt_no_pipe n2) hrest
    exact ⟨hs, ht, formatInt_injective hn⟩
  · have h3 : s1 ++ 124 :: t1 ++ 124 :: formatInt n1 = s2 ++ 124 :: t2 ++ 124 :: formatInt n2 := by
      simpa only [List.append_assoc, List.cons_append] using h
    obtain ⟨hst, hn⟩ := split_at_last_sep (s1 ++ 124 :: t1) (s2 ++ 124 :: t2) _ _
      (formatInt_no_pipe n1) (formatInt_no_pipe n2) h3
    obtain ⟨hs, ht⟩ := split_at_last_sep s1 s2 t1 t2 h1 h2 hst
    exact ⟨hs, ht, formatInt_injective hn⟩

/-- Witness for the amended C10. -/
theorem payload_injective_without_separator_witness :
    str "u1" = str "u1" ∧ str "org-1" = str "org-1" ∧ (1700000000 : Int) = 1700000000 :=
  payload_injective_without_separator (str "u1") (str "u1") (str "org-1") (str "org-1")
    1700000000 1700000000 (Or.inl ⟨by decide, by decide⟩) rfl

end AuthServer
